import Mathlib

/-!
Verification of the value-movement core of the crypto-manager-engine wallet
back end (deposit indexer, withdrawal batcher, ledger, wallet service).

Money embedding: every amount the source stores is a two-decimal string kept
normalised with `toFixed(2)`, and the numeric guards compare the parsed
values.  We embed amounts as integer cents (`Int`): on this domain the
source's `toFixed(2)` renormalisation is the identity and `parseFloat`
round-trips exactly, so the float detour of the source is invisible.

The LevelDB store is embedded as an association list in which a put prepends
and a lookup takes the first match; a failed operation returns the unchanged
list, which models "the stored record is unchanged".
-/

/-- Key of a balance record, `balance:{username}:{blockchain}:{currency}`. -/
structure BalKey where
  username : String
  blockchain : String
  currency : String
deriving DecidableEq, Repr

/-- A stored `Balance` record (src/db/models.ts): `amount` is the available
balance and `frozenAmount` the frozen balance, in cents. -/
structure BalanceRec where
  amount : Int
  frozenAmount : Int
deriving DecidableEq, Repr

/-- The balance part of the key/value store. -/
abbrev BalStore := List (BalKey × BalanceRec)

/-- Lookup of a key (db.get): first matching entry. -/
def storeGet (s : BalStore) (k : BalKey) : Option BalanceRec :=
  match s with
  | [] => none
  | (k2, v) :: rest => if k2 = k then some v else storeGet rest k

/-- Write of a key (db.put): the new record shadows any older one. -/
def storePut (s : BalStore) (k : BalKey) (v : BalanceRec) : BalStore :=
  (k, v) :: s

/-- `BalanceModel.getBalance`: returns a zero balance when none is stored. -/
def getBalance (s : BalStore) (k : BalKey) : BalanceRec :=
  (storeGet s k).getD { amount := 0, frozenAmount := 0 }

/-- The error kinds thrown by the balance model (the source throws `Error`s
with distinguishable messages). -/
inductive LedgerErr where
  | negativeAmount
  | negativeFrozen
  | insufficientAvailable
deriving DecidableEq, Repr

/-- `BalanceModel.updateBalance`: rejects a negative available amount, then a
negative frozen amount, before any write; on success commits the record.
Returns the post store and the error, the store being unchanged on error. -/
def updateBalance (s : BalStore) (k : BalKey) (b : BalanceRec) :
    BalStore × Option LedgerErr :=
  if b.amount < 0 then (s, some .negativeAmount)
  else if b.frozenAmount < 0 then (s, some .negativeFrozen)
  else (storePut s k b, none)

/-- `BalanceModel.freezeBalance`: moves `amountToFreeze` from available to
frozen, failing first when `available < amountToFreeze`. -/
def freezeBalance (s : BalStore) (k : BalKey) (amountToFreeze : Int) :
    BalStore × Option LedgerErr :=
  let b := getBalance s k
  if b.amount < amountToFreeze then (s, some .insufficientAvailable)
  else updateBalance s k
    { amount := b.amount - amountToFreeze
      frozenAmount := b.frozenAmount + amountToFreeze }

/-- `BalanceModel.unfreezeBalance`: when `frozen < amountToUnfreeze` the
source logs a warning and returns successfully without touching the store;
otherwise it moves the amount back from frozen to available. -/
def unfreezeBalance (s : BalStore) (k : BalKey) (amountToUnfreeze : Int) :
    BalStore × Option LedgerErr :=
  let b := getBalance s k
  if b.frozenAmount < amountToUnfreeze then (s, none)
  else updateBalance s k
    { amount := b.amount + amountToUnfreeze
      frozenAmount := b.frozenAmount - amountToUnfreeze }

/-- The inline ledger credit of `IndexerService.processDeposit`: read the
balance, add the deposit amount to available, write through
`updateBalance`. -/
def creditBalance (s : BalStore) (k : BalKey) (amt : Int) :
    BalStore × Option LedgerErr :=
  let b := getBalance s k
  updateBalance s k { amount := b.amount + amt, frozenAmount := b.frozenAmount }

/-- The inline settlement of `BatchProcessorService.processBucket` on a
successful receipt: deduct the reserved total from frozen, write through
`updateBalance`. -/
def settleReserved (s : BalStore) (k : BalKey) (totalReserved : Int) :
    BalStore × Option LedgerErr :=
  let b := getBalance s k
  updateBalance s k { amount := b.amount, frozenAmount := b.frozenAmount - totalReserved }

/-- The `send_balance_to_user` route (src/api/routes/balance.ts): pre-checks
`available < amount`, then reads the recipient balance and issues the two
balance writes of the `Promise.all`; each write commits independently of
the other (the source awaits two separate puts, each with its own guard).
The surfaced error is the first one raised. -/
def sendBalanceToUser (s : BalStore) (sender recipient blockchain currency : String)
    (amt : Int) : BalStore × Option LedgerErr :=
  let sk : BalKey := ⟨sender, blockchain, currency⟩
  let rk : BalKey := ⟨recipient, blockchain, currency⟩
  let sb := getBalance s sk
  if sb.amount < amt then (s, some .insufficientAvailable)
  else
    let rb := getBalance s rk
    let w1 := updateBalance s sk { amount := sb.amount - amt, frozenAmount := sb.frozenAmount }
    let w2 := updateBalance w1.1 rk { amount := rb.amount + amt, frozenAmount := rb.frozenAmount }
    (w2.1, w1.2 <|> w2.2)

/-- One ledger operation of the core, as issued by its callers. -/
inductive LedgerOp where
  | credit (k : BalKey) (amt : Int)
  | freeze (k : BalKey) (amt : Int)
  | unfreeze (k : BalKey) (amt : Int)
  | settle (k : BalKey) (amt : Int)
  | transfer (sender recipient blockchain currency : String) (amt : Int)
  | update (k : BalKey) (b : BalanceRec)
deriving DecidableEq, Repr

/-- The committed store after one ledger operation (a failing operation
leaves the store as the operation left it, which for the single-write
operations is unchanged). -/
def applyOp (s : BalStore) : LedgerOp → BalStore
  | .credit k a => (creditBalance s k a).1
  | .freeze k a => (freezeBalance s k a).1
  | .unfreeze k a => (unfreezeBalance s k a).1
  | .settle k a => (settleReserved s k a).1
  | .transfer u v bc cur a => (sendBalanceToUser s u v bc cur a).1
  | .update k b => (updateBalance s k b).1

/-- The committed store after a sequence of ledger operations. -/
def runOps (s : BalStore) (ops : List LedgerOp) : BalStore :=
  ops.foldl applyOp s

/-- Every stored balance record is componentwise non-negative. -/
def nonNegStore (s : BalStore) : Prop :=
  ∀ k r, storeGet s k = some r → 0 ≤ r.amount ∧ 0 ≤ r.frozenAmount

/-! ## Deposit pipeline (src/blockchain/indexer.ts, `IndexerService.processDeposit`)

One call of `processDeposit` for a fixed deposit id is embedded as a function
of the stored state, the chain head, the outcome of the sweep
(`TransactionService.transferToHotWallet`) and a failure schedule: each store
write consumes one entry of the schedule (`true` = the put commits, `false` =
the put throws), an exhausted schedule meaning every further write commits.
A thrown write diverts into the source's `catch` block, which re-reads the
stored record.  Store deletes and the in-memory bookkeeping
(`pendingQueues`, `processedTransactions`) never throw in this embedding;
reads never throw. -/

/-- Deposit states (src/db/models.ts `Deposit.status`). -/
inductive DStatus where
  | pending
  | confirming
  | confirmed
  | credited
  | failed
deriving DecidableEq, Repr

/-- The stored deposit record fields the pipeline reads and writes. -/
structure DepositRec where
  status : DStatus
  confirmations : Int
  retries : Nat
  amount : Int
deriving DecidableEq, Repr

/-- The store and task state around one deposit id: its stored record, its
`depositStartBlock:` entry, the balance store, and the in-memory queue and
processed-set membership of the id. -/
structure IdxState where
  deposit : Option DepositRec
  startBlock : Option Int
  balances : BalStore
  inQueue : Bool
  processed : Bool
deriving DecidableEq, Repr

/-- Observable pipeline events: a committed write of the deposit record with
the given status, a completed sweep to the hot wallet, and a committed
ledger credit. -/
inductive DEvent where
  | statusWrite (st : DStatus)
  | sweepDone
  | creditCommit (amt : Int)
deriving DecidableEq, Repr

/-- Outcome of `TransactionService.transferToHotWallet` for this call. -/
inductive SweepRes where
  | ok
  | failInsufficient
  | failTransient
deriving DecidableEq, Repr

/-- Pop the next write outcome off the failure schedule. -/
def takeStep : List Bool → Bool × List Bool
  | [] => (true, [])
  | b :: rest => (b, rest)

/-- Result of one `processDeposit` call: the committed state and the events
of the call in order. -/
structure PDResult where
  state : IdxState
  events : List DEvent
deriving DecidableEq, Repr

/-- The terminal cleanup (queue.delete, processedTransactions.add, delete of
the `depositStartBlock:` entry) run when the in-memory record is
`credited` or `failed`. -/
def pdCleanup (s : IdxState) : IdxState :=
  { s with inQueue := false, processed := true, startBlock := none }

/-- The `catch` block of `processDeposit` (indexer.ts lines 756-803): re-read
the stored record; an insufficient-balance error fails the deposit
terminally; otherwise bump the retry counter, failing terminally past
`MAX_RETRIES` (3). A write that itself throws ends the call with the state
committed so far (the error escapes to the worker, which only clears its
in-process lock). -/
def processDepositCatch (insufficient : Bool) (sched : List Bool) (s : IdxState)
    (evs : List DEvent) : PDResult :=
  match s.deposit with
  | none => ⟨pdCleanup s, evs⟩
  | some d =>
    if insufficient then
      let step := takeStep sched
      if step.1 then
        pdFail d s evs
      else ⟨s, evs⟩
    else
      let retries := d.retries + 1
      if retries > 3 then
        let step := takeStep sched
        if step.1 then
          pdFail ({ d with retries := retries }) s evs
        else ⟨s, evs⟩
      else
        let step := takeStep sched
        if step.1 then
          ⟨{ s with deposit := some ({ d with retries := retries }) },
            evs ++ [.statusWrite d.status]⟩
        else ⟨s, evs⟩
where
  /-- Commit the record as `failed` and run the terminal cleanup. -/
  pdFail (d : DepositRec) (s : IdxState) (evs : List DEvent) : PDResult :=
    ⟨pdCleanup { s with deposit := some ({ d with status := .failed }) },
      evs ++ [.statusWrite .failed]⟩

/-- One call of `IndexerService.processDeposit` (indexer.ts lines 687-804) for
a fixed deposit id whose balance key is `k`.  `required` is the chain's
`requiredConfirmations`, `head` the current block number, `sweep` the outcome
of the sweep, `sched` the failure schedule of the store writes. -/
def processDeposit (required : Int) (k : BalKey) (head : Int) (sweep : SweepRes)
    (sched : List Bool) (s : IdxState) : PDResult :=
  match s.deposit with
  | none => ⟨pdCleanup s, []⟩
  | some d =>
    let startBlock := s.startBlock.getD 0
    let confirmations := head - startBlock + 1
    if confirmations ≥ required ∧ d.status ≠ .confirmed then
      let step1 := takeStep sched
      if step1.1 then
        let d1 : DepositRec := { d with status := .confirmed, confirmations := confirmations }
        let s1 := { s with deposit := some d1 }
        let evs1 := [DEvent.statusWrite .confirmed]
        match sweep with
        | .failInsufficient => processDepositCatch true step1.2 s1 evs1
        | .failTransient => processDepositCatch false step1.2 s1 evs1
        | .ok =>
          let evs2 := evs1 ++ [DEvent.sweepDone]
          let step2 := takeStep step1.2
          if step2.1 then
            match creditBalance s1.balances k d.amount with
            | (bals2, none) =>
              let s2 := { s1 with balances := bals2 }
              let evs3 := evs2 ++ [DEvent.creditCommit d.amount]
              let step3 := takeStep step2.2
              if step3.1 then
                let d3 : DepositRec :=
                  { d with status := .credited, confirmations := confirmations, retries := 0 }
                let s3 := { s2 with deposit := some d3 }
                ⟨pdCleanup s3, evs3 ++ [DEvent.statusWrite .credited]⟩
              else processDepositCatch false step3.2 s2 evs3
            | (_, some _) => processDepositCatch false step2.2 s1 evs2
          else processDepositCatch false step2.2 s1 evs2
      else processDepositCatch false step1.2 s []
    else if confirmations ≠ d.confirmations then
      let step1 := takeStep sched
      if step1.1 then
        let d1 : DepositRec :=
          { d with confirmations := min confirmations required, status := .confirming }
        ⟨{ s with deposit := some d1 }, [DEvent.statusWrite .confirming]⟩
      else processDepositCatch false step1.2 s []
    else if d.status = .credited ∨ d.status = .failed then ⟨pdCleanup s, []⟩
    else ⟨s, []⟩

/-- Input of one worker call on the deposit id. -/
structure PDCall where
  head : Int
  sweep : SweepRes
  sched : List Bool
deriving DecidableEq, Repr

/-- Run the worker repeatedly on one deposit id, concatenating the events. -/
def runDeposits (required : Int) (k : BalKey) (s : IdxState) :
    List PDCall → IdxState × List DEvent
  | [] => (s, [])
  | c :: rest =>
    let r := processDeposit required k c.head c.sweep c.sched s
    let tail := runDeposits required k r.state rest
    (tail.1, r.events ++ tail.2)

/-- Balance key of the deposit used in the concrete pipeline runs. -/
def kD : BalKey := ⟨"alice", "mind", "MIND"⟩

/-- A deposit of 5.00 MIND observed at block 100, already at 5 confirmations,
with `requiredConfirmations = 10`: the stored record, its start block, an
empty balance store, the id queued and not yet processed. -/
def depositStart : IdxState :=
  { deposit := some { status := .confirming, confirmations := 5, retries := 0, amount := 500 }
    startBlock := some 100
    balances := []
    inQueue := true
    processed := false }

/-- The three worker calls of the double-credit execution: at head 109 the
deposit confirms, sweeps and is credited, but the put of the `credited`
record throws (schedule `[true, true, false]`) and the catch commits a retry;
at head 110 the stored `confirmed` record is regressed to `confirming`
(the `else if` branch); the third call re-enters the credit branch, sweeps
and credits a second time. -/
def doubleCreditCalls : List PDCall :=
  [⟨109, .ok, [true, true, false]⟩, ⟨110, .ok, [true]⟩, ⟨110, .ok, [true, true, true]⟩]

/-- The two worker calls of the status-regression execution: at head 109 the
record is committed as `confirmed` but the sweep throws and the catch
commits a retry; at head 110 the recomputed confirmation count differs from
the stored one, so the `else if` branch commits the record as
`confirming` again. -/
def regressionCalls : List PDCall :=
  [⟨109, .failTransient, [true, true]⟩, ⟨110, .ok, [true]⟩]

/-! ## Withdrawal batch settlement (src/blockchain/batchProcessor.ts,
`BatchProcessorService.processBucket`)

One settlement of one bucket is embedded with the same write-failure
schedule discipline as the deposit pipeline: each store write of a balance
or withdrawal record consumes one schedule entry; a throw diverts into the
source's inner `catch`, which marks every eligible withdrawal failed and
unfreezes its reserved amount; a throw inside that `catch` escapes to the
outer `catch`, which only logs.  The bucket-list clear of the `finally`
block is modelled as never throwing. -/

/-- Withdrawal states (src/db/models.ts `Withdrawal.status`). -/
inductive WStatus where
  | created
  | addedToBucket
  | processing
  | completed
  | failed
deriving DecidableEq, Repr

/-- The stored withdrawal record fields settlement reads and writes. -/
structure WdRec where
  username : String
  amount : Int
  status : WStatus
deriving DecidableEq, Repr

/-- The withdrawal part of the store, keyed by withdrawal id. -/
abbrev WdStore := List (Nat × WdRec)

/-- Lookup of a withdrawal id: first matching entry. -/
def wdGet (s : WdStore) (id : Nat) : Option WdRec :=
  match s with
  | [] => none
  | (id2, w) :: rest => if id2 = id then some w else wdGet rest id

/-- Write of a withdrawal record. -/
def wdPut (s : WdStore) (id : Nat) (w : WdRec) : WdStore :=
  (id, w) :: s

/-- Store state around one bucket: its withdrawal records, the balance
store, and the bucket's withdrawal-id list. -/
structure BPState where
  withdrawals : WdStore
  balances : BalStore
  bucketIds : List Nat
deriving DecidableEq, Repr

/-- Observable settlement events: a committed withdrawal-record write, a
committed settle (frozen deduction) and a committed unfreeze, each with
the reserved amount `amount + withdrawal_fee`. -/
inductive BEvent where
  | statusCommit (wid : Nat) (st : WStatus)
  | settleCommit (wid : Nat) (reserved : Int)
  | unfreezeCommit (wid : Nat) (reserved : Int)
deriving DecidableEq, Repr

/-- Outcome of the on-chain batch submission and its receipt. -/
inductive BatchSubmit where
  | receiptSuccess
  | receiptReverted
  | submitFailed
deriving DecidableEq, Repr

/-- Result of one settlement loop: committed state, events, the remaining
schedule, and whether an error escaped the loop. -/
structure LoopRes where
  state : BPState
  events : List BEvent
  sched : List Bool
  thrown : Bool
deriving DecidableEq, Repr

/-- The eligible withdrawals of the bucket: those of the bucket's list still
in `added_to_bucket` (batchProcessor.ts lines 99-104). -/
def collectValid (st : BPState) : List (Nat × WdRec) :=
  st.bucketIds.filterMap (fun id =>
    match wdGet st.withdrawals id with
    | some w => if w.status = .addedToBucket then some (id, w) else none
    | none => none)

/-- The `finally` block's clear of the bucket's withdrawal list. -/
def clearBucket (st : BPState) : BPState :=
  { st with bucketIds := [] }

/-- The transition of every eligible withdrawal to `processing`
(batchProcessor.ts lines 125-131); a throw escapes to the outer catch. -/
def markProcessingLoop (sched : List Bool) (st : BPState) (evs : List BEvent) :
    List (Nat × WdRec) → LoopRes
  | [] => ⟨st, evs, sched, false⟩
  | (id, w) :: rest =>
    let step := takeStep sched
    if step.1 then
      markProcessingLoop step.2
        { st with withdrawals := wdPut st.withdrawals id ({ w with status := .processing }) }
        (evs ++ [.statusCommit id .processing]) rest
    else ⟨st, evs, step.2, true⟩

/-- The per-withdrawal success branch of the receipt loop (batchProcessor.ts
lines 269-296): the settle write and the `completed` record write run under
one `Promise.all`, so both are attempted and each commits independently;
if either throws the loop is abandoned towards the inner catch. -/
def settleLoop (blockchain currency : String) (fee : Int) (sched : List Bool)
    (st : BPState) (evs : List BEvent) : List (Nat × WdRec) → LoopRes
  | [] => ⟨st, evs, sched, false⟩
  | (id, w) :: rest =>
    let reserved := w.amount + fee
    let k : BalKey := ⟨w.username, blockchain, currency⟩
    let step1 := takeStep sched
    let res := settleReserved st.balances k reserved
    let balOk := step1.1 && res.2.isNone
    let bals2 := if step1.1 then res.1 else st.balances
    let step2 := takeStep step1.2
    let wds2 := if step2.1 then wdPut st.withdrawals id ({ w with status := .completed })
      else st.withdrawals
    let st2 : BPState := { st with balances := bals2, withdrawals := wds2 }
    let evs2 := evs ++ (if balOk then [BEvent.settleCommit id reserved] else [])
      ++ (if step2.1 then [BEvent.statusCommit id .completed] else [])
    if balOk && step2.1 then settleLoop blockchain currency fee step2.2 st2 evs2 rest
    else ⟨st2, evs2, step2.2, true⟩

/-- The per-withdrawal failure handling, shared by the reverted-receipt
branch (batchProcessor.ts lines 297-313) and the inner catch (lines
319-337): mark the record failed, unfreeze the reserved amount (a silent
no-op when the frozen balance is below it), write the record; a throw
escapes. -/
def failAndUnfreezeLoop (blockchain currency : String) (fee : Int) (sched : List Bool)
    (st : BPState) (evs : List BEvent) : List (Nat × WdRec) → LoopRes
  | [] => ⟨st, evs, sched, false⟩
  | (id, w) :: rest =>
    let reserved := w.amount + fee
    let k : BalKey := ⟨w.username, blockchain, currency⟩
    let b := getBalance st.balances k
    if b.frozenAmount < reserved then
      let step2 := takeStep sched
      if step2.1 then
        failAndUnfreezeLoop blockchain currency fee step2.2
          { st with withdrawals := wdPut st.withdrawals id ({ w with status := .failed }) }
          (evs ++ [.statusCommit id .failed]) rest
      else ⟨st, evs, step2.2, true⟩
    else
      let step1 := takeStep sched
      let res := unfreezeBalance st.balances k reserved
      let unfOk := step1.1 && res.2.isNone
      let bals2 := if step1.1 then res.1 else st.balances
      let st2 : BPState := { st with balances := bals2 }
      if unfOk then
        let step2 := takeStep step1.2
        if step2.1 then
          failAndUnfreezeLoop blockchain currency fee step2.2
            { st2 with withdrawals := wdPut st2.withdrawals id ({ w with status := .failed }) }
            (evs ++ [.unfreezeCommit id reserved, .statusCommit id .failed]) rest
        else ⟨st2, evs ++ [.unfreezeCommit id reserved], step2.2, true⟩
      else ⟨st2, evs, step1.2, true⟩

/-- One settlement of one bucket (`BatchProcessorService.processBucket`,
batchProcessor.ts lines 82-363): collect the eligible withdrawals, mark
them `processing`, pre-check hot-wallet liquidity against the bucket total,
submit, and post the receipt's outcome back to the ledger; every throw from
the marked stage onward lands in the inner catch, which fails and
unfreezes every eligible withdrawal. -/
def processBucket (blockchain currency : String) (fee : Int) (hotBal : Int)
    (submit : BatchSubmit) (sched : List Bool) (st : BPState) :
    BPState × List BEvent :=
  let valid := collectValid st
  if valid.isEmpty then (clearBucket st, [])
  else
    let r1 := markProcessingLoop sched st [] valid
    if r1.thrown then (clearBucket r1.state, r1.events)
    else
      let total := (valid.map (fun p => p.2.amount)).sum
      if hotBal < total then
        let r2 := failAndUnfreezeLoop blockchain currency fee r1.sched r1.state r1.events valid
        (clearBucket r2.state, r2.events)
      else
        match submit with
        | .submitFailed =>
          let r2 := failAndUnfreezeLoop blockchain currency fee r1.sched r1.state r1.events valid
          (clearBucket r2.state, r2.events)
        | .receiptReverted =>
          let r2 := failAndUnfreezeLoop blockchain currency fee r1.sched r1.state r1.events valid
          if r2.thrown then
            let r3 := failAndUnfreezeLoop blockchain currency fee r2.sched r2.state r2.events valid
            (clearBucket r3.state, r3.events)
          else (clearBucket r2.state, r2.events)
        | .receiptSuccess =>
          let r2 := settleLoop blockchain currency fee r1.sched r1.state r1.events valid
          if r2.thrown then
            let r3 := failAndUnfreezeLoop blockchain currency fee r2.sched r2.state r2.events valid
            (clearBucket r3.state, r3.events)
          else (clearBucket r2.state, r2.events)

/-- The bucket state of the settle-then-unfreeze execution: one eligible
withdrawal of 0.40 USDT by bob (fee 0.10, reserved 0.50); bob's frozen
balance is 1.00, holding this reservation and a 0.50 reservation of a
second withdrawal pending in another bucket. -/
def bothAppliedStart : BPState :=
  { withdrawals := [(1, { username := "bob", amount := 40, status := .addedToBucket })]
    balances := [(⟨"bob", "mind", "USDT"⟩, { amount := 0, frozenAmount := 100 })]
    bucketIds := [1] }

/-- The settle-then-unfreeze execution: marking and the settle write commit,
the `completed` record write throws, and the inner catch then unfreezes the
already-settled reservation. -/
def bothAppliedRun : BPState × List BEvent :=
  processBucket "mind" "USDT" 10 1000000 .receiptSuccess [true, true, false, true, true]
    bothAppliedStart

/-! ## Block recovery (src/blockchain/indexer.ts, `startBlockRecovery`) -/

/-- One tick of the five-minute recovery task (indexer.ts lines 527-550):
when the head is past the persisted `lastProcessedBlock`, every block of
`[max(lastProcessed - lookback, 0), head]` without a `BlockCache` entry is
replayed through `processBlock`.  Returns the block numbers replayed;
`cached` is the set of block numbers holding a `BlockCache` entry. -/
def startBlockRecoveryStep (head lastProcessed lookback : Nat) (cached : List Nat) :
    List Nat :=
  if head ≤ lastProcessed then []
  else
    let start := lastProcessed - lookback
    (List.range' start (head + 1 - start)).filter (fun i => decide (i ∉ cached))

/-! ## Wallet service (src/blockchain/wallet.ts, `WalletService.generateAccount`)

The cryptographic primitives are embedded as ideal collision-free
functions: `Nat.pair` stands for the keccak mix of two byte strings and for
the injective tagging steps.  The only facts used are that the key
generator reads both the fresh system randomness and the caller's extra
entropy, which is exactly how ethers `Wallet.createRandom` behaves. -/

/-- SHA-256 of the username (`createHash('sha256')`), modelled as a fixed
fold of the character codes. -/
def sha256Of (u : String) : Nat :=
  u.data.foldl (fun acc c => Nat.pair acc c.toNat) 0

/-- ethers `Wallet.createRandom({ extraEntropy })`: sixteen fresh random
bytes are keccak-mixed with the extra entropy and the mix seeds the key;
the mix is modelled as the pairing of the two inputs. -/
def createRandomKey (systemEntropy extraEntropy : Nat) : Nat :=
  Nat.pair systemEntropy extraEntropy

/-- Address derivation from a private key (keccak of the public key),
modelled as an injective tagging. -/
def addressOfKey (priv : Nat) : Nat :=
  Nat.pair 1 priv

/-- AES-256-CBC encryption of the key at rest, modelled as an injective
tagging (the random IV plays no role in the claims and is elided). -/
def encryptKey (priv : Nat) : Nat :=
  Nat.pair 2 priv

/-- A stored `Account` record (src/db/models.ts). -/
structure Account where
  username : String
  address : Nat
  encryptedPrivateKey : Nat
  timestamp : Nat
deriving DecidableEq, Repr

/-- The account part of the store, keyed by username. -/
abbrev AccStore := List (String × Account)

/-- Lookup of an account (`AccountModel.findByUsername`). -/
def accGet (s : AccStore) (u : String) : Option Account :=
  match s with
  | [] => none
  | (u2, a) :: rest => if u2 = u then some a else accGet rest u

/-- Write of an account (`AccountModel.create`). -/
def accPut (s : AccStore) (u : String) (a : Account) : AccStore :=
  (u, a) :: s

/-- `WalletService.generateAccount` (wallet.ts lines 10-56): return the
stored account's username, address and timestamp when one exists, writing
nothing; otherwise derive a key from fresh system entropy and the SHA-256
hash of the username, store the account and return it. -/
def generateAccount (store : AccStore) (username : String) (systemEntropy now : Nat) :
    AccStore × (String × Nat × Nat) :=
  match accGet store username with
  | some acc => (store, (acc.username, acc.address, acc.timestamp))
  | none =>
    let priv := createRandomKey systemEntropy (sha256Of username)
    let acc : Account :=
      { username := username, address := addressOfKey priv
        encryptedPrivateKey := encryptKey priv, timestamp := now }
    (accPut store username acc, (username, addressOfKey priv, now))

/-- A stored account used by the concrete wallet-service runs. -/
def aliceAccount : Account :=
  { username := "alice", address := 11, encryptedPrivateKey := 12, timestamp := 99 }

/-! ## Theorems -/

theorem storeGet_cons (k2 k : BalKey) (v : BalanceRec) (s : BalStore) :
    storeGet ((k2, v) :: s) k = if k2 = k then some v else storeGet s k := rfl

theorem getBalance_storePut_same (s : BalStore) (k : BalKey) (v : BalanceRec) :
    getBalance (storePut s k v) k = v := by
  simp [getBalance, storePut, storeGet]

theorem getBalance_storePut_other (s : BalStore) {k k2 : BalKey} (h : k ≠ k2)
    (v : BalanceRec) : getBalance (storePut s k v) k2 = getBalance s k2 := by
  simp [getBalance, storePut, storeGet, h]

theorem nonNegStore_nil : nonNegStore [] := by
  intro k r h
  simp [storeGet] at h

theorem nonNegStore_storePut {s : BalStore} (h : nonNegStore s) {k : BalKey}
    {v : BalanceRec} (h1 : 0 ≤ v.amount) (h2 : 0 ≤ v.frozenAmount) :
    nonNegStore (storePut s k v) := by
  intro k2 r hr
  rw [storePut, storeGet_cons] at hr
  by_cases hk : k = k2
  · rw [if_pos hk] at hr
    cases hr
    exact ⟨h1, h2⟩
  · rw [if_neg hk] at hr
    exact h k2 r hr

theorem nonNegStore_updateBalance {s : BalStore} (h : nonNegStore s)
    (k : BalKey) (b : BalanceRec) : nonNegStore (updateBalance s k b).1 := by
  unfold updateBalance
  by_cases h1 : b.amount < 0
  · rw [if_pos h1]
    exact h
  · rw [if_neg h1]
    by_cases h2 : b.frozenAmount < 0
    · rw [if_pos h2]
      exact h
    · rw [if_neg h2]
      exact nonNegStore_storePut h (le_of_not_lt h1) (le_of_not_lt h2)

theorem nonNegStore_applyOp {s : BalStore} (h : nonNegStore s) (op : LedgerOp) :
    nonNegStore (applyOp s op) := by
  cases op with
  | credit k a =>
    simp only [applyOp, creditBalance]
    exact nonNegStore_updateBalance h k _
  | freeze k a =>
    simp only [applyOp, freezeBalance]
    by_cases hc : (getBalance s k).amount < a
    · rw [if_pos hc]
      exact h
    · rw [if_neg hc]
      exact nonNegStore_updateBalance h k _
  | unfreeze k a =>
    simp only [applyOp, unfreezeBalance]
    by_cases hc : (getBalance s k).frozenAmount < a
    · rw [if_pos hc]
      exact h
    · rw [if_neg hc]
      exact nonNegStore_updateBalance h k _
  | settle k a =>
    simp only [applyOp, settleReserved]
    exact nonNegStore_updateBalance h k _
  | transfer u v bc cur a =>
    simp only [applyOp, sendBalanceToUser]
    by_cases hc : (getBalance s ⟨u, bc, cur⟩).amount < a
    · rw [if_pos hc]
      exact h
    · rw [if_neg hc]
      exact nonNegStore_updateBalance (nonNegStore_updateBalance h _ _) _ _
  | update k b =>
    exact nonNegStore_updateBalance h k b

theorem nonNegStore_runOps {s : BalStore} (h : nonNegStore s)
    (ops : List LedgerOp) : nonNegStore (runOps s ops) := by
  induction ops generalizing s with
  | nil => exact h
  | cons op rest ih => exact ih (nonNegStore_applyOp h op)

/-- C3: along every sequence of ledger operations starting from the zero
store, every committed balance record has non-negative available and frozen
components; and an update that would commit a negative component fails
leaving the store unchanged. -/
theorem ledger_nonneg_invariant :
    (∀ ops : List LedgerOp, nonNegStore (runOps [] ops)) ∧
    (∀ (s : BalStore) (k : BalKey) (b : BalanceRec),
      b.amount < 0 ∨ b.frozenAmount < 0 →
        (updateBalance s k b).1 = s ∧ (updateBalance s k b).2 ≠ none) := by
  constructor
  · intro ops
    exact nonNegStore_runOps nonNegStore_nil ops
  · intro s k b hb
    unfold updateBalance
    by_cases h1 : b.amount < 0
    · rw [if_pos h1]
      exact ⟨rfl, by simp⟩
    · have h2 : b.frozenAmount < 0 := hb.resolve_left h1
      rw [if_neg h1, if_pos h2]
      exact ⟨rfl, by simp⟩

/-- C3 witness: a concrete credit from the zero store commits a non-negative
record, and a concrete negative update is rejected unchanged. -/
theorem ledger_nonneg_invariant_witness :
    ((0:Int) ≤ (500:Int) ∧ (0:Int) ≤ (0:Int)) ∧
    (updateBalance [] kD { amount := -1, frozenAmount := 0 }).1 = [] := by
  constructor
  · exact ledger_nonneg_invariant.1 [LedgerOp.credit kD 500] kD
      { amount := 500, frozenAmount := 0 } (by decide)
  · exact (ledger_nonneg_invariant.2 [] kD { amount := -1, frozenAmount := 0 }
      (Or.inl (by decide))).1

/-- C4: `freezeBalance` fails with `INSUFFICIENT_AVAILABLE` exactly when the
available balance is below the requested amount; any failure leaves the
store unchanged; success moves exactly the requested amount from available
to frozen. -/
theorem freezeBalance_spec (s : BalStore) (k : BalKey) (amt : Int) :
    ((freezeBalance s k amt).2 = some LedgerErr.insufficientAvailable ↔
      (getBalance s k).amount < amt) ∧
    ((freezeBalance s k amt).2 ≠ none → (freezeBalance s k amt).1 = s) ∧
    ((freezeBalance s k amt).2 = none →
      getBalance (freezeBalance s k amt).1 k =
        { amount := (getBalance s k).amount - amt
          frozenAmount := (getBalance s k).frozenAmount + amt }) := by
  simp only [freezeBalance, updateBalance]
  by_cases hc : (getBalance s k).amount < amt
  · rw [if_pos hc]
    exact ⟨by simp [hc], fun _ => rfl, fun h => by simp at h⟩
  · rw [if_neg hc]
    by_cases h1 : (getBalance s k).amount - amt < 0
    · exact absurd (by linarith : (getBalance s k).amount < amt) hc
    · rw [if_neg h1]
      by_cases h2 : (getBalance s k).frozenAmount + amt < 0
      · rw [if_pos h2]
        exact ⟨by simp [hc], fun _ => rfl, fun h => by simp at h⟩
      · rw [if_neg h2]
        exact ⟨by simp [hc], fun h => absurd rfl h,
          fun _ => getBalance_storePut_same s k _⟩

/-- C4 witness: freezing 1.00 out of 3.00 available moves exactly 1.00 into
frozen, and freezing from an empty balance fails with
`INSUFFICIENT_AVAILABLE`. -/
theorem freezeBalance_spec_witness :
    getBalance (freezeBalance [(kD, { amount := 300, frozenAmount := 0 })] kD 100).1 kD =
      { amount := 200, frozenAmount := 100 } ∧
    (freezeBalance [(kD, { amount := 0, frozenAmount := 0 })] kD 100).2 =
      some LedgerErr.insufficientAvailable := by
  constructor
  · exact ((freezeBalance_spec [(kD, { amount := 300, frozenAmount := 0 })] kD 100).2.2
      (by decide)).trans (by decide)
  · exact (freezeBalance_spec [(kD, { amount := 0, frozenAmount := 0 })] kD 100).1.mpr
      (by decide)

/-- C5 counterexample: with 1.00 frozen, unfreezing 2.00 succeeds but moves
nothing — it does not move `min(2.00, 1.00)` to available as claimed. -/
theorem unfreezeBalance_partial_cex :
    unfreezeBalance [(kD, { amount := 0, frozenAmount := 100 })] kD 200 =
      ([(kD, { amount := 0, frozenAmount := 100 })], none) ∧
    getBalance (unfreezeBalance [(kD, { amount := 0, frozenAmount := 100 })] kD 200).1 kD ≠
      { amount := min 200 100, frozenAmount := 0 } := by decide

/-- C5 amended: over-unfreeze returns success with the store untouched (a
no-op, not a partial move); otherwise exactly the requested amount moves
from frozen to available, subject to the non-negativity guard on the new
available amount. -/
theorem unfreezeBalance_spec (s : BalStore) (k : BalKey) (amt : Int) :
    ((getBalance s k).frozenAmount < amt → unfreezeBalance s k amt = (s, none)) ∧
    (amt ≤ (getBalance s k).frozenAmount → 0 ≤ (getBalance s k).amount + amt →
      (unfreezeBalance s k amt).2 = none ∧
      getBalance (unfreezeBalance s k amt).1 k =
        { amount := (getBalance s k).amount + amt
          frozenAmount := (getBalance s k).frozenAmount - amt }) := by
  simp only [unfreezeBalance, updateBalance]
  constructor
  · intro hc
    rw [if_pos hc]
  · intro hle hpos
    rw [if_neg (not_lt.mpr hle), if_neg (not_lt.mpr hpos),
      if_neg (not_lt.mpr (by linarith : (0:Int) ≤ (getBalance s k).frozenAmount - amt))]
    exact ⟨rfl, getBalance_storePut_same s k _⟩

/-- C5 amended witness: unfreezing 2.00 against 1.00 frozen is a committed
no-op, and unfreezing 0.40 against 1.00 frozen moves exactly 0.40. -/
theorem unfreezeBalance_spec_witness :
    unfreezeBalance [(kD, { amount := 5, frozenAmount := 100 })] kD 200 =
      ([(kD, { amount := 5, frozenAmount := 100 })], none) ∧
    getBalance (unfreezeBalance [(kD, { amount := 5, frozenAmount := 100 })] kD 40).1 kD =
      { amount := 45, frozenAmount := 60 } := by
  constructor
  · exact (unfreezeBalance_spec [(kD, { amount := 5, frozenAmount := 100 })] kD 200).1
      (by decide)
  · exact (((unfreezeBalance_spec [(kD, { amount := 5, frozenAmount := 100 })] kD 40).2
      (by decide) (by decide)).2).trans (by decide)

/-- C6 counterexample: with amount −5.00 and both parties at the zero
balance, the availability pre-check passes (0 < −500 is false), the
sender's write commits `0 − (−500) = 500` and the recipient's write fails
its negativity guard: exactly one side of the transfer commits, so the
two balance changes are not atomic (and the sender is credited rather
than debited). -/
theorem sendBalanceToUser_atomic_cex :
    getBalance (sendBalanceToUser [] "alice" "bob" "mind" "MIND" (-500)).1
      ⟨"alice", "mind", "MIND"⟩ = { amount := 500, frozenAmount := 0 } ∧
    getBalance (sendBalanceToUser [] "alice" "bob" "mind" "MIND" (-500)).1
      ⟨"bob", "mind", "MIND"⟩ = { amount := 0, frozenAmount := 0 } ∧
    (sendBalanceToUser [] "alice" "bob" "mind" "MIND" (-500)).2 ≠ none := by decide

/-- C6 amended: the transfer is two independent guarded writes, not an
atomic pair; when the amount is non-negative, the sender covers it and
both parties' records are well-formed, both writes commit and the claimed
postcondition holds (sender debited, recipient credited, frozen amounts
untouched). -/
theorem sendBalanceToUser_spec (s : BalStore)
    (sender recipient blockchain currency : String) (amt : Int)
    (hns : sender ≠ recipient) (h0 : 0 ≤ amt)
    (hav : amt ≤ (getBalance s ⟨sender, blockchain, currency⟩).amount)
    (hsf : 0 ≤ (getBalance s ⟨sender, blockchain, currency⟩).frozenAmount)
    (hra : 0 ≤ (getBalance s ⟨recipient, blockchain, currency⟩).amount)
    (hrf : 0 ≤ (getBalance s ⟨recipient, blockchain, currency⟩).frozenAmount) :
    (sendBalanceToUser s sender recipient blockchain currency amt).2 = none ∧
    getBalance (sendBalanceToUser s sender recipient blockchain currency amt).1
      ⟨sender, blockchain, currency⟩ =
      { amount := (getBalance s ⟨sender, blockchain, currency⟩).amount - amt
        frozenAmount := (getBalance s ⟨sender, blockchain, currency⟩).frozenAmount } ∧
    getBalance (sendBalanceToUser s sender recipient blockchain currency amt).1
      ⟨recipient, blockchain, currency⟩ =
      { amount := (getBalance s ⟨recipient, blockchain, currency⟩).amount + amt
        frozenAmount := (getBalance s ⟨recipient, blockchain, currency⟩).frozenAmount } := by
  have hkey : (⟨sender, blockchain, currency⟩ : BalKey) ≠ ⟨recipient, blockchain, currency⟩ := by
    intro h
    exact hns (congrArg BalKey.username h)
  simp only [sendBalanceToUser, updateBalance]
  rw [if_neg (not_lt.mpr hav),
    if_neg (not_lt.mpr (by linarith : (0:Int) ≤ (getBalance s ⟨sender, blockchain, currency⟩).amount - amt)),
    if_neg (not_lt.mpr hsf),
    if_neg (not_lt.mpr (by linarith : (0:Int) ≤ (getBalance s ⟨recipient, blockchain, currency⟩).amount + amt)),
    if_neg (not_lt.mpr hrf)]
  refine ⟨rfl, ?_, ?_⟩
  · rw [getBalance_storePut_other _ (Ne.symm hkey), getBalance_storePut_same]
  · rw [getBalance_storePut_same]

/-- C6 amended witness: a concrete 3.00 transfer from alice (10.00
available) to bob debits and credits both sides. -/
theorem sendBalanceToUser_spec_witness :
    getBalance (sendBalanceToUser [(⟨"alice", "mind", "MIND"⟩, { amount := 1000, frozenAmount := 0 })]
        "alice" "bob" "mind" "MIND" 300).1 ⟨"alice", "mind", "MIND"⟩ =
      { amount := 700, frozenAmount := 0 } ∧
    getBalance (sendBalanceToUser [(⟨"alice", "mind", "MIND"⟩, { amount := 1000, frozenAmount := 0 })]
        "alice" "bob" "mind" "MIND" 300).1 ⟨"bob", "mind", "MIND"⟩ =
      { amount := 300, frozenAmount := 0 } := by
  have h := sendBalanceToUser_spec
    [(⟨"alice", "mind", "MIND"⟩, { amount := 1000, frozenAmount := 0 })]
    "alice" "bob" "mind" "MIND" 300 (by decide) (by decide) (by decide) (by decide)
    (by decide) (by decide)
  exact ⟨h.2.1.trans (by decide), h.2.2.trans (by decide)⟩

/-- C1 (code bug): in the execution `doubleCreditCalls`, the write of the
`credited` record throws after the ledger credit committed; the deposit is
left stored as `confirmed`, the next call regresses it to `confirming`
(the `else if` branch defeats the `status !== "confirmed"` guard), the
credit branch re-enters, and the 5.00 deposit is credited twice: the final
available balance is 10.00 and the trace holds two credit commits. -/
theorem deposit_double_credit_run :
    ((runDeposits 10 kD depositStart doubleCreditCalls).2.filter
      (fun e => decide (e = DEvent.creditCommit 500))).length = 2 ∧
    getBalance (runDeposits 10 kD depositStart doubleCreditCalls).1.balances kD =
      { amount := 1000, frozenAmount := 0 } ∧
    (runDeposits 10 kD depositStart doubleCreditCalls).1.deposit =
      some { status := .credited, confirmations := 11, retries := 0, amount := 500 } := by
  decide

/-- C7 (code bug): in the execution `regressionCalls`, the record is
committed as `confirmed`, the sweep throws, and the next call commits the
record as `confirming` again: a stored `confirmed` deposit transitions
backwards. -/
theorem deposit_status_regression_run :
    ((runDeposits 10 kD depositStart [⟨109, .failTransient, [true, true]⟩]).1.deposit.map
      DepositRec.status = some DStatus.confirmed) ∧
    ((runDeposits 10 kD depositStart regressionCalls).1.deposit.map
      DepositRec.status = some DStatus.confirming) ∧
    (runDeposits 10 kD depositStart regressionCalls).2 =
      [DEvent.statusWrite .confirmed, DEvent.statusWrite .confirmed,
        DEvent.statusWrite .confirming] := by
  decide

/-- C2 (code bug): in the execution `bothAppliedRun` the batch receipt is
successful and the settle of withdrawal 1 commits, but the write of its
`completed` record throws; the inner catch then unfreezes the same
reservation (covered by the user's other frozen funds): both
`settle(reserved)` and `unfreeze(reserved)` are applied to withdrawal 1,
and 0.50 reappears as available despite the successful on-chain payout. -/
theorem withdrawal_settle_and_unfreeze_run :
    BEvent.settleCommit 1 50 ∈ bothAppliedRun.2 ∧
    BEvent.unfreezeCommit 1 50 ∈ bothAppliedRun.2 ∧
    getBalance bothAppliedRun.1.balances ⟨"bob", "mind", "USDT"⟩ =
      { amount := 50, frozenAmount := 0 } := by
  decide

/-- C8 counterexample: with head 11, last processed 10 and blocks 6..11
cached, the recovery tick replays block 5, whose number is below the
persisted last-processed block. -/
theorem startBlockRecovery_reprocess_cex :
    5 ∈ startBlockRecoveryStep 11 10 1000 [6, 7, 8, 9, 10, 11] ∧
    5 ≤ 10 := by decide

/-- C8 amended: a recovery tick replays exactly the blocks of
`[max(lastProcessed − lookback, 0), head]` without a cache entry, and only
when the head is past the last processed block; a block at or below the
last processed block is replayed whenever its cache entry is absent. -/
theorem startBlockRecoveryStep_spec (head lastProcessed lookback : Nat)
    (cached : List Nat) (b : Nat) :
    b ∈ startBlockRecoveryStep head lastProcessed lookback cached ↔
      lastProcessed < head ∧ lastProcessed - lookback ≤ b ∧ b ≤ head ∧ b ∉ cached := by
  simp only [startBlockRecoveryStep]
  by_cases hh : head ≤ lastProcessed
  · rw [if_pos hh]
    simp only [List.not_mem_nil, false_iff]
    exact fun h => absurd h.1 (not_lt.mpr hh)
  · rw [if_neg hh]
    rw [List.mem_filter, List.mem_range'_1]
    simp only [decide_eq_true_eq]
    constructor
    · rintro ⟨⟨h1, h2⟩, h3⟩
      exact ⟨lt_of_not_le hh, h1, by omega, h3⟩
    · rintro ⟨h1, h2, h3, h4⟩
      exact ⟨⟨h2, by omega⟩, h4⟩

/-- C8 amended witness: block 3 is uncached and within the look-back
window, so the concrete tick replays it. -/
theorem startBlockRecoveryStep_spec_witness :
    3 ∈ startBlockRecoveryStep 11 10 1000 [6, 7, 8, 9, 10, 11] :=
  (startBlockRecoveryStep_spec 11 10 1000 [6, 7, 8, 9, 10, 11] 3).mpr
    ⟨by decide, by decide, by decide, by decide⟩

/-- C9 counterexample: two runs of the key-generation procedure for the
same username with different fresh system randomness produce different
private keys and different account records — generation is not
deterministic in the username hash alone. -/
theorem generateAccount_nondeterministic_cex :
    createRandomKey 0 (sha256Of "alice") ≠ createRandomKey 1 (sha256Of "alice") ∧
    (generateAccount [] "alice" 0 7).2 ≠ (generateAccount [] "alice" 1 7).2 := by
  decide

/-- C9 amended: the generated key is a function of the fresh system
randomness together with the username hash, and two runs agree exactly
when the system randomness repeats; a user's address is stable across
calls only because `generateAccount` returns the stored account. -/
theorem createRandomKey_deterministic_iff (e s1 s2 : Nat) :
    createRandomKey s1 e = createRandomKey s2 e ↔ s1 = s2 := by
  unfold createRandomKey
  constructor
  · intro h
    exact (Nat.pair_eq_pair.mp h).1
  · intro h
    rw [h]

/-- C9 amended witness: repeating the system randomness reproduces the
key. -/
theorem createRandomKey_deterministic_iff_witness :
    createRandomKey 5 (sha256Of "alice") = createRandomKey 5 (sha256Of "alice") :=
  (createRandomKey_deterministic_iff (sha256Of "alice") 5 5).mpr rfl

/-- C10: when an account record already exists for the username,
`generateAccount` writes nothing — the store is returned unchanged, no key
is derived — and the stored username, address and timestamp are
returned. -/
theorem generateAccount_idempotent (store : AccStore) (username : String)
    (systemEntropy now : Nat) (acc : Account)
    (h : accGet store username = some acc) :
    generateAccount store username systemEntropy now =
      (store, (acc.username, acc.address, acc.timestamp)) := by
  unfold generateAccount
  rw [h]

/-- C10 witness: a second `generateAccount` call for alice returns her
stored address and timestamp and leaves the store unchanged. -/
theorem generateAccount_idempotent_witness :
    generateAccount [("alice", aliceAccount)] "alice" 3 100 =
      ([("alice", aliceAccount)], ("alice", 11, 99)) :=
  (generateAccount_idempotent [("alice", aliceAccount)] "alice" 3 100 aliceAccount
    (by decide)).trans (by decide)
